import Mathlib

set_option maxRecDepth 4000

/-!
Verification of the resiliency core of the JobHub repository:
`src/server/services/puppeteerLauncher.js` (the `withPage` retry and
page-lifecycle harness) and `src/server/services/geminiService.js`
(model-fallback probing, the expiring FIFO response cache, the cached
generation dispatch, and the job-recommendation extraction pipeline).

Each JavaScript function is embedded as an executable Lean definition;
the asynchronous network behaviour (the wrapped scraper operation, the
model probe, the generation backend) is passed in as an explicit
function parameter, and state (the response cache, the active model)
is threaded explicitly.
-/

/- ================================================================
   Part 1: puppeteerLauncher.js, `withPage` (lines 21-39)

   for (let attempt = 1; attempt <= retries + 1; attempt++) {
     const page = await browser.newPage();          -- OUTSIDE try
     try {
       await page.setUserAgent(...);
       const result = await fn(page, attempt);
       await page.close();
       return result;
     } catch (err) {
       console.warn(...);
       await page.close().catch(() => ...);          -- swallowed
       if (attempt > retries) throw err;
     }
   }
   ================================================================ -/

/-- Observable trace of one `withPage` call: the final outcome, how many
times the wrapped operation `fn` was invoked, how many `browser.newPage`
calls were made, and how many `page.close` calls were made. -/
structure PageRun (ε α : Type) where
  result : Except ε α
  fnCalls : Nat
  newPageCalls : Nat
  closeCalls : Nat

/-- Increment all per-attempt call counters of a tail run by one. -/
def withPageNext (p : PageRun ε α) : PageRun ε α :=
  ⟨p.result, p.fnCalls + 1, p.newPageCalls + 1, p.closeCalls + 1⟩

/-- One `withPage` loop, starting at attempt number `attempt` with `left`
retries remaining; the JS loop runs `attempt = 1 .. retries + 1`, so the
top-level call starts at `attempt = 1`, `left = retries`, and the JS
guard `if (attempt > retries) throw err` is exactly `left = 0` (first
pattern; the second pattern is an attempt with at least one retry left).

`newPage n` models `browser.newPage()` at attempt `n`: it sits outside
the `try`, so its error is returned as-is, ending the loop.
`fn n` models the whole `try` body at attempt `n` (the user-agent setup,
the wrapped operation, and the success-path `page.close()` are all
caught by the same `catch`, so they are one composite step here).
`closeOnErr n` models the failure-path `page.close()`, whose outcome is
swallowed by `.catch(() => ...)`: both of its outcomes continue
identically, keeping the operation's error `e`. -/
def withPageGo (newPage : Nat → Except ε Unit) (fn : Nat → Except ε α)
    (closeOnErr : Nat → Except ε Unit) : Nat → Nat → PageRun ε α
  | attempt, 0 =>
    match newPage attempt with
    | Except.error e => ⟨Except.error e, 0, 1, 0⟩
    | Except.ok _ =>
      match fn attempt with
      | Except.ok a => ⟨Except.ok a, 1, 1, 1⟩
      | Except.error e =>
        match closeOnErr attempt with
        | Except.ok _ => ⟨Except.error e, 1, 1, 1⟩
        | Except.error _ => ⟨Except.error e, 1, 1, 1⟩
  | attempt, left + 1 =>
    match newPage attempt with
    | Except.error e => ⟨Except.error e, 0, 1, 0⟩
    | Except.ok _ =>
      match fn attempt with
      | Except.ok a => ⟨Except.ok a, 1, 1, 1⟩
      | Except.error _e =>
        match closeOnErr attempt with
        | Except.ok _ =>
          withPageNext (withPageGo newPage fn closeOnErr (attempt + 1) left)
        | Except.error _ =>
          withPageNext (withPageGo newPage fn closeOnErr (attempt + 1) left)

/-- Model of `withPage(fn, options)` itself: page creation and the failure-path
close succeed; only the wrapped operation may fail. -/
def withPage (fn : Nat → Except ε α) (retries : Nat) : PageRun ε α :=
  withPageGo (fun _ => Except.ok ()) fn (fun _ => Except.ok ()) 1 retries

/-- An operation that fails on its first `k` invocations (attempts
`1 .. k`, the error of attempt `n` being `errs n`) and succeeds from
invocation `k + 1` on, returning `a`. -/
def failsFirstK (k : Nat) (errs : Nat → ε) (a : α) : Nat → Except ε α :=
  fun n => if n ≤ k then Except.error (errs n) else Except.ok a

/-- Closed form of the `withPage` loop on a fail-then-succeed operation:
starting at attempt `t` with `left` retries remaining, the loop either
succeeds immediately, exhausts all `left + 1` attempts (the last attempt
being number `t + left`), or succeeds at attempt `k + 1`. -/
lemma withPageGo_failsFirstK (k : Nat) (errs : Nat → ε) (a : α) :
    ∀ left t, withPageGo (fun _ => Except.ok ()) (failsFirstK k errs a)
        (fun _ => Except.ok ()) t left =
      if k < t then ⟨Except.ok a, 1, 1, 1⟩
      else if t + left ≤ k then
        ⟨Except.error (errs (t + left)), left + 1, left + 1, left + 1⟩
      else ⟨Except.ok a, k + 2 - t, k + 2 - t, k + 2 - t⟩ := by
  intro left
  induction left with
  | zero =>
    intro t
    by_cases h : k < t
    · simp only [withPageGo, failsFirstK, if_neg (by omega : ¬ t ≤ k), if_pos h]
    · simp only [withPageGo, failsFirstK, if_pos (by omega : t ≤ k), if_neg h,
        if_pos (by omega : t + 0 ≤ k), Nat.add_zero, Nat.zero_add]
  | succ left' ih =>
    intro t
    by_cases h : k < t
    · simp only [withPageGo, failsFirstK, if_neg (by omega : ¬ t ≤ k), if_pos h]
    · simp only [withPageGo, failsFirstK, if_pos (by omega : t ≤ k), if_neg h]
      rw [ih (t + 1)]
      by_cases h1 : k < t + 1
      · have hk : k = t := by omega
        subst hk
        simp only [if_pos h1, withPageNext,
          if_neg (by omega : ¬ k + (left' + 1) ≤ k),
          show k + 2 - k = 2 from by omega]
      · by_cases h2 : t + 1 + left' ≤ k
        · simp only [if_neg h1, if_pos h2, withPageNext,
            if_pos (by omega : t + (left' + 1) ≤ k),
            show t + 1 + left' = t + (left' + 1) from by omega]
        · simp only [if_neg h1, if_neg h2, withPageNext,
            if_neg (by omega : ¬ t + (left' + 1) ≤ k),
            show k + 2 - (t + 1) + 1 = k + 2 - t from by omega]

/-- C1: for an operation failing its first `k` invocations and
succeeding on invocation `k + 1`, `withPage` with `retries = r` returns
the operation's result iff `k ≤ r`, invokes the operation exactly
`min (k + 1) (r + 1)` times, and when all `r + 1` attempts fail it
propagates exactly the error of the last attempt (attempt `r + 1`);
earlier attempts' errors do not appear in the outcome. -/
theorem withPage_retry_bound (k r : Nat) (errs : Nat → ε) (a : α) :
    ((withPage (failsFirstK k errs a) r).result = Except.ok a ↔ k ≤ r) ∧
    (withPage (failsFirstK k errs a) r).fnCalls = min (k + 1) (r + 1) ∧
    (r < k →
      (withPage (failsFirstK k errs a) r).result = Except.error (errs (r + 1))) := by
  unfold withPage
  rw [withPageGo_failsFirstK]
  by_cases h : k < 1
  · simp only [if_pos h]
    refine ⟨by simp only [true_iff]; omega, ?_, fun hr => absurd hr (by omega)⟩
    show (1 : Nat) = min (k + 1) (r + 1)
    omega
  · simp only [if_neg h]
    by_cases h2 : 1 + r ≤ k
    · simp only [if_pos h2]
      refine ⟨iff_of_false (by simp) (by omega), ?_, fun _ => ?_⟩
      · show r + 1 = min (k + 1) (r + 1)
        omega
      · exact congrArg (fun n => Except.error (errs n)) (by omega)
    · simp only [if_neg h2]
      refine ⟨by simp only [true_iff]; omega, ?_, fun hr => absurd hr (by omega)⟩
      show k + 2 - 1 = min (k + 1) (r + 1)
      omega

/-- C1 witness: `k = 3`, `r = 1` — both attempts fail, the error of the
last attempt (attempt 2) is surfaced, and the operation ran twice. -/
theorem withPage_retry_bound_inst :
    (withPage (failsFirstK 3 (fun n => n) 42) 1).result = Except.error 2 ∧
    (withPage (failsFirstK 3 (fun n => n) 42) 1).fnCalls = min 4 2 :=
  ⟨(withPage_retry_bound 3 1 (fun n => n) 42).2.2 (by decide),
   (withPage_retry_bound 3 1 (fun n => n) 42).2.1⟩

/-- C2 helper: on any run where page creation succeeds, every attempt
contributes exactly one `newPage` and one `close`, whichever way the
operation and the failure-path close behave; and the failure-path
close's outcome never changes the result. -/
lemma withPageGo_balanced (fn : Nat → Except ε α) (closeOnErr : Nat → Except ε Unit) :
    ∀ left t,
      (withPageGo (fun _ => Except.ok ()) fn closeOnErr t left).newPageCalls =
        (withPageGo (fun _ => Except.ok ()) fn closeOnErr t left).closeCalls ∧
      (withPageGo (fun _ => Except.ok ()) fn closeOnErr t left).result =
        (withPageGo (fun _ => Except.ok ()) fn (fun _ => Except.ok ()) t left).result := by
  intro left
  induction left with
  | zero =>
    intro t
    simp only [withPageGo]
    cases fn t with
    | ok a => exact ⟨rfl, rfl⟩
    | error e =>
      cases closeOnErr t with
      | ok _ => exact ⟨rfl, rfl⟩
      | error _ => exact ⟨rfl, rfl⟩
  | succ left' ih =>
    intro t
    simp only [withPageGo]
    cases fn t with
    | ok a => exact ⟨rfl, rfl⟩
    | error e =>
      cases closeOnErr t with
      | ok _ =>
        exact ⟨congrArg (· + 1) (ih (t + 1)).1, (ih (t + 1)).2⟩
      | error _ =>
        exact ⟨congrArg (· + 1) (ih (t + 1)).1, (ih (t + 1)).2⟩

/-- C2: in every execution of `withPage` (page creation succeeding, the
wrapped operation and the failure-path close behaving arbitrarily per
attempt), the number of `browser.newPage` calls equals the number of
`page.close` calls, and the result is the same as in the run whose
failure-path closes all succeed — a close error is swallowed and never
replaces the operation's original error. -/
theorem withPage_open_close_balanced (fn : Nat → Except ε α)
    (closeOnErr : Nat → Except ε Unit) (retries : Nat) :
    (withPageGo (fun _ => Except.ok ()) fn closeOnErr 1 retries).newPageCalls =
      (withPageGo (fun _ => Except.ok ()) fn closeOnErr 1 retries).closeCalls ∧
    (withPageGo (fun _ => Except.ok ()) fn closeOnErr 1 retries).result =
      (withPage fn retries).result :=
  withPageGo_balanced fn closeOnErr retries 1

/-- A page-creation behaviour that throws on the first attempt and would
succeed afterwards. -/
def newPageFailsFirst : Nat → Except String Unit :=
  fun n => if n = 1 then Except.error "newPage failed" else Except.ok ()

/-- C3 counterexample: with `retries = 2` and an operation that always
succeeds, a `browser.newPage` failure on attempt 1 is NOT retried: the
error propagates immediately, the operation is never invoked (so no
second attempt happened), and no further page is opened. The claim
would instead predict a retry (hence `fnCalls ≥ 1` and a success). -/
theorem newPage_failure_counterexample :
    (withPageGo newPageFailsFirst (fun _ => (Except.ok 7 : Except String Nat))
        (fun _ => Except.ok ()) 1 2).result = Except.error "newPage failed" ∧
    (withPageGo newPageFailsFirst (fun _ => (Except.ok 7 : Except String Nat))
        (fun _ => Except.ok ()) 1 2).fnCalls = 0 :=
  ⟨rfl, rfl⟩

/-- C3 amended: `browser.newPage()` sits outside the `try`, so when page
creation fails at the current attempt the error propagates immediately
to the caller — the loop ends with zero further operation invocations
and no retry, regardless of how many retries remain. -/
theorem newPage_failure_propagates (newPage : Nat → Except ε Unit)
    (fn : Nat → Except ε α) (closeOnErr : Nat → Except ε Unit)
    (t left : Nat) (e : ε) (h : newPage t = Except.error e) :
    withPageGo newPage fn closeOnErr t left = ⟨Except.error e, 0, 1, 0⟩ := by
  cases left with
  | zero => simp only [withPageGo, h]
  | succ left' => simp only [withPageGo, h]

/-- C3 amended-claim witness: a newPage failure on attempt 1 with 5
retries remaining still aborts at once. -/
theorem newPage_failure_propagates_inst :
    withPageGo newPageFailsFirst (fun _ => (Except.ok 0 : Except String Nat))
      (fun _ => Except.ok ()) 1 5 = ⟨Except.error "newPage failed", 0, 1, 0⟩ :=
  newPage_failure_propagates newPageFailsFirst _ _ 1 5 "newPage failed" rfl

/- ================================================================
   Part 2: geminiService.js

   The response cache is a JS `Map` read/written only through
   `getCached` (lines 125-132) and `setCache` (lines 134-142); a `Map`
   keeps entries in insertion order with unique keys, so it is embedded
   as an association list without duplicate keys, where `set` on an
   existing key overwrites in place and `delete` of the first key drops
   the head entry.
   ================================================================ -/

/-- One cache entry: `{ data, timestamp }` (setCache line 135). -/
structure CacheEntry where
  data : String
  timestamp : Nat
deriving DecidableEq

/-- The `this.cache` Map, in insertion order. -/
abbrev Cache := List (String × CacheEntry)

/-- Value of `this.cacheExpiry` (line 24): 5 minutes in ms. -/
def cacheExpiry : Nat := 5 * 60 * 1000

/-- Model of `this.cache.get(key)`. -/
def mapGet (c : Cache) (k : String) : Option CacheEntry :=
  (c.find? (fun p => p.1 == k)).map (fun p => p.2)

/-- Model of `getCached(key)` at current time `now` (lines 125-132): an entry is
returned only while `now - timestamp < cacheExpiry`; an expired entry is
ignored (not removed). -/
def getCached (c : Cache) (k : String) (now : Nat) : Option String :=
  match mapGet c k with
  | some e => if now - e.timestamp < cacheExpiry then some e.data else none
  | none => none

/-- Model of `this.cache.set(key, value)`: overwrite in place if the key exists,
else append at the end (Map insertion-order semantics). -/
def mapSet (c : Cache) (k : String) (v : CacheEntry) : Cache :=
  if c.any (fun p => p.1 == k) then
    c.map (fun p => if p.1 == k then (k, v) else p)
  else c ++ [(k, v)]

/-- Model of `setCache(key, data)` at time `now` (lines 134-142): insert, then if
the size exceeds 100, delete the first (oldest-inserted) key. -/
def setCache (c : Cache) (k : String) (data : String) (now : Nat) : Cache :=
  let c2 := mapSet c k ⟨data, now⟩
  if 100 < c2.length then c2.drop 1 else c2

/-- The `for (const modelName of models) if (await this.tryModel(...))
return` loop of `init` (lines 42-46 and 64-68): `probe m` is the outcome
of `tryModel(m)`. Returns the selected model (if any) and the list of
candidates probed, in probing order. -/
def tryModels (probe : String → Bool) : List String → Option String × List String
  | [] => (none, [])
  | m :: rest =>
    if probe m then (some m, [m])
    else
      let r := tryModels probe rest
      (r.1, m :: r.2)

/-- Model of `init` (lines 29-79): probe the hardcoded candidates in order; only
if none succeeds, probe the discovery-based list once; if that also
fails, no model is recorded (the gateway stays uninitialized). -/
def initGateway (probe : String → Bool) (hardcoded discovered : List String) :
    Option String × List String :=
  match (tryModels probe hardcoded).1 with
  | some m => (some m, (tryModels probe hardcoded).2)
  | none =>
    ((tryModels probe discovered).1,
      (tryModels probe hardcoded).2 ++ (tryModels probe discovered).2)

/-- The error thrown by `generateRaw`/`generateStream` when
`this.model` is null (lines 166 and 189). -/
def noModelMsg : String := "No active Gemini model initialized"

/-- Outcome of one `generateRaw` call: the returned text or thrown
error, the cache afterwards, and how many backend generation requests
were issued. -/
structure GenResult where
  out : Except String String
  cache : Cache
  backendCalls : Nat

/-- Model of `generateRaw(prompt)` (lines 163-183): fail if no active
model; otherwise look up `prompt.substring(0, 100)` in the cache. The
guard `if (cached) return cached` (line 172) is a JS truthiness test on
the cached string, so only a non-empty valid entry is returned as a hit;
a stored empty string — like an absent or expired entry — falls through
to a fresh backend call whose text is stored under the truncated key
(the fall-through body appears once in the source; it is duplicated
over the two falsy match arms here). -/
def generateRaw (activeModel : Option String) (c : Cache)
    (backend : String → String) (now : Nat) (prompt : String) : GenResult :=
  match activeModel with
  | none => ⟨Except.error noModelMsg, c, 0⟩
  | some _ =>
    match getCached c (prompt.take 100) now with
    | some cached =>
      if cached ≠ "" then ⟨Except.ok cached, c, 0⟩
      else ⟨Except.ok (backend prompt), setCache c (prompt.take 100) (backend prompt) now, 1⟩
    | none =>
      ⟨Except.ok (backend prompt), setCache c (prompt.take 100) (backend prompt) now, 1⟩

/-- Outcome of one `generateStream` call: the lazily-produced chunk
sequence or thrown error, the cache afterwards, and the number of
backend requests issued. -/
structure StreamResult where
  out : Except String (List String)
  cache : Cache
  backendCalls : Nat

/-- Model of `generateStream(prompt)` (lines 186-194): fail if no active model;
otherwise issue the streaming backend request directly — the source
performs no cache read and no cache write on this path. -/
def generateStream (activeModel : Option String) (c : Cache)
    (backendStream : String → List String) (prompt : String) : StreamResult :=
  match activeModel with
  | none => ⟨Except.error noModelMsg, c, 0⟩
  | some _ => ⟨Except.ok (backendStream prompt), c, 1⟩

/-- The selected model of the probing loop is the first candidate whose
probe succeeds. -/
lemma tryModels_fst (probe : String → Bool) :
    ∀ l : List String, (tryModels probe l).1 = l.find? probe := by
  intro l
  induction l with
  | nil => rfl
  | cons m rest ih =>
    cases h : probe m with
    | true => simp [tryModels, List.find?_cons, h]
    | false => simp [tryModels, List.find?_cons, h, ih]

/-- The probed candidates are exactly the failing front of the list
followed by the first success (when there is one). -/
lemma tryModels_snd (probe : String → Bool) :
    ∀ l : List String,
      (tryModels probe l).2 =
        l.takeWhile (fun m => !probe m) ++ (l.find? probe).toList := by
  intro l
  induction l with
  | nil => rfl
  | cons m rest ih =>
    cases h : probe m with
    | true => simp [tryModels, List.takeWhile_cons, List.find?_cons, h]
    | false => simp [tryModels, List.takeWhile_cons, List.find?_cons, h, ih]

/-- C4: gateway initialization probes candidates strictly in list order,
selects exactly the first candidate whose probe succeeds, and stops
there: the probed list is the failing front followed by the winner, so
no later candidate (and nothing from the discovery list) is probed. -/
theorem init_first_success_wins (probe : String → Bool) (hc d : List String) :
    (tryModels probe hc).1 = hc.find? probe ∧
    (tryModels probe hc).2 =
      hc.takeWhile (fun m => !probe m) ++ (hc.find? probe).toList ∧
    (∀ m, hc.find? probe = some m →
      initGateway probe hc d = (some m, hc.takeWhile (fun x => !probe x) ++ [m])) := by
  refine ⟨tryModels_fst probe hc, tryModels_snd probe hc, ?_⟩
  intro m hm
  unfold initGateway
  rw [tryModels_fst probe hc, hm]
  simp only []
  rw [tryModels_snd probe hc, hm]
  rfl

/-- C4 witness: candidates `[A, B, C]` with `B` the first success and a
nonempty discovery list: `B` is selected, only `A` and `B` were probed,
`C` and the discovery candidates were not. -/
theorem init_first_success_wins_inst :
    initGateway (fun s => s == "B") ["A", "B", "C"] ["D"] = (some "B", ["A", "B"]) :=
  (init_first_success_wins (fun s => s == "B") ["A", "B", "C"] ["D"]).2.2 "B" (by decide)

/-- C5: when every hardcoded probe fails and the one-shot discovery
fallback also fails, no model is recorded, and every subsequent
`generateRaw` / `generateStream` call fails with the "not initialized"
error while issuing zero backend calls and leaving the cache unchanged. -/
theorem uninitialized_gateway (probe : String → Bool) (hc d : List String)
    (h1 : hc.find? probe = none) (h2 : d.find? probe = none) :
    (initGateway probe hc d).1 = none ∧
    (∀ c backend now prompt,
      generateRaw (initGateway probe hc d).1 c backend now prompt =
        ⟨Except.error noModelMsg, c, 0⟩) ∧
    (∀ c bs prompt,
      generateStream (initGateway probe hc d).1 c bs prompt =
        ⟨Except.error noModelMsg, c, 0⟩) := by
  have hnone : (initGateway probe hc d).1 = none := by
    unfold initGateway
    rw [tryModels_fst probe hc, h1]
    simp only []
    rw [tryModels_fst probe d, h2]
  refine ⟨hnone, ?_, ?_⟩
  · intro c backend now prompt
    rw [hnone]
    rfl
  · intro c bs prompt
    rw [hnone]
    rfl

/-- C5 witness: two hardcoded candidates and one discovery candidate,
all failing: the gateway stays uninitialized and a concrete
`generateRaw` call errors with zero backend calls. -/
theorem uninitialized_gateway_inst :
    (initGateway (fun _ => false) ["a", "b"] ["c"]).1 = none ∧
    generateRaw (initGateway (fun _ => false) ["a", "b"] ["c"]).1 []
        (fun s => s) 0 "hello" = ⟨Except.error noModelMsg, [], 0⟩ :=
  ⟨(uninitialized_gateway (fun _ => false) ["a", "b"] ["c"] (by decide) (by decide)).1,
   (uninitialized_gateway (fun _ => false) ["a", "b"] ["c"] (by decide) (by decide)).2.1
     [] (fun s => s) 0 "hello"⟩

/-- Map lookup on a one-entry cache whose key matches. -/
lemma mapGet_singleton (k : String) (e : CacheEntry) : mapGet [(k, e)] k = some e := by
  simp [mapGet]

/-- Map insertion on a one-entry cache whose key matches overwrites in
place. -/
lemma mapSet_singleton (k : String) (e v : CacheEntry) : mapSet [(k, e)] k v = [(k, v)] := by
  simp [mapSet]

/-- On a one-entry cache whose key matches, `setCache` overwrites the
entry; no eviction happens at size 1. -/
lemma setCache_singleton (k : String) (e : CacheEntry) (d : String) (now : Nat) :
    setCache [(k, e)] k d now = [(k, CacheEntry.mk d now)] := by
  simp [setCache, mapSet_singleton]

/-- C6 counterexample: with a backend that generates empty text, the
first `generateRaw` call stores `""`; one millisecond later the entry is
still valid by `getCached` (well within 5 minutes), yet the identical
second call issues a fresh backend request (1 backend call, not the 0
the claim predicts) — the truthiness guard `if (cached)` treats the
stored empty string as a miss. -/
theorem generate_empty_text_counterexample :
    (generateRaw (some "m") [] (fun _ => "") 0 "p").cache =
      [("p".take 100, CacheEntry.mk "" 0)] ∧
    getCached [("p".take 100, CacheEntry.mk "" 0)] ("p".take 100) 1 = some "" ∧
    (generateRaw (some "m") [("p".take 100, CacheEntry.mk "" 0)]
        (fun _ => "") 1 "p").backendCalls = 1 :=
  ⟨by decide, by decide, by decide⟩

/-- C6 amended: starting from an empty cache, a `generateRaw(p1)` call
at time `t0` issues one backend call and stores the text under the
100-character key; provided that stored text is non-empty (the JS
truthiness guard `if (cached)` makes a stored empty string a miss that
triggers a fresh backend call), a second call at time `t1` whose prompt
shares the same first-100-character key returns the cached text of the
first call with zero backend calls while `t1 - t0 < cacheExpiry`, and
once `cacheExpiry ≤ t1 - t0` the entry is ignored and a fresh backend
request is issued (overwriting the entry in place). -/
theorem generate_cache_hit_and_expiry (backend : String → String) (m : String)
    (t0 t1 : Nat) (p1 p2 : String) (hpre : p2.take 100 = p1.take 100)
    (hne : backend p1 ≠ "") :
    generateRaw (some m) [] backend t0 p1 =
      ⟨Except.ok (backend p1), [(p1.take 100, CacheEntry.mk (backend p1) t0)], 1⟩ ∧
    (t1 - t0 < cacheExpiry →
      generateRaw (some m) [(p1.take 100, CacheEntry.mk (backend p1) t0)] backend t1 p2 =
        ⟨Except.ok (backend p1), [(p1.take 100, CacheEntry.mk (backend p1) t0)], 0⟩) ∧
    (cacheExpiry ≤ t1 - t0 →
      generateRaw (some m) [(p1.take 100, CacheEntry.mk (backend p1) t0)] backend t1 p2 =
        ⟨Except.ok (backend p2), [(p1.take 100, CacheEntry.mk (backend p2) t1)], 1⟩) := by
  refine ⟨rfl, ?_, ?_⟩
  · intro h
    simp only [generateRaw]
    rw [hpre]
    simp only [getCached, mapGet_singleton]
    rw [if_pos h]
    simp only [ne_eq]
    rw [if_pos hne]
  · intro h
    simp only [generateRaw]
    rw [hpre]
    simp only [getCached, mapGet_singleton]
    rw [if_neg (by omega)]
    simp only [setCache_singleton]

/-- C6 witness: a hit 1 ms after insertion returns the cached text with
no backend call; a call exactly at the 5-minute bound issues a fresh
backend request and refreshes the stored timestamp. -/
theorem generate_cache_hit_and_expiry_inst :
    generateRaw (some "m") [("p".take 100, CacheEntry.mk ("p" ++ "!") 0)]
        (fun s => s ++ "!") 1 "p" =
      ⟨Except.ok ("p" ++ "!"), [("p".take 100, CacheEntry.mk ("p" ++ "!") 0)], 0⟩ ∧
    generateRaw (some "m") [("p".take 100, CacheEntry.mk ("p" ++ "!") 0)]
        (fun s => s ++ "!") 300000 "p" =
      ⟨Except.ok ("p" ++ "!"), [("p".take 100, CacheEntry.mk ("p" ++ "!") 300000)], 1⟩ :=
  ⟨(generate_cache_hit_and_expiry (fun s => s ++ "!") "m" 0 1 "p" "p" rfl
      (by decide)).2.1 (by decide),
   (generate_cache_hit_and_expiry (fun s => s ++ "!") "m" 0 300000 "p" "p" rfl
      (by decide)).2.2 (by decide)⟩

/-- Folding `setCache(k, vals k)` over the keys `ks` at a fixed time `now`,
starting from cache `c`. -/
def insertKeys (now : Nat) (vals : String → String) (c : Cache) (ks : List String) :
    Cache :=
  ks.foldl (fun acc k => setCache acc k (vals k) now) c

/-- With a key not present in the cache, `setCache` appends the entry and
drops the oldest entry exactly when the bound of 100 was already met. -/
lemma setCache_fresh (c : Cache) (k d : String) (now : Nat)
    (h : c.any (fun p => p.1 == k) = false) :
    setCache c k d now =
      if c.length < 100 then c ++ [(k, CacheEntry.mk d now)]
      else (c ++ [(k, CacheEntry.mk d now)]).drop 1 := by
  simp only [setCache, mapSet, h, Bool.false_eq_true, if_false, List.length_append,
    List.length_cons, List.length_nil]
  by_cases hl : c.length < 100
  · rw [if_neg (by omega), if_pos hl]
  · rw [if_pos (by omega), if_neg hl]

/-- No entry of a keyed map over `l` carries a key outside `l`. -/
lemma any_key_drop_map (l : List String) (g : String → String × CacheEntry)
    (hg : ∀ k, (g k).1 = k) (a : String) (n : Nat) (ha : a ∉ l) :
    ((l.map g).drop n).any (fun p => p.1 == a) = false := by
  rw [List.any_eq_false]
  intro p hp
  obtain ⟨k, hk, rfl⟩ := List.mem_map.mp (List.mem_of_mem_drop hp)
  simp only [hg k, beq_iff_eq]
  intro hka
  exact ha (hka ▸ hk)

/-- Folding `setCache` over distinct fresh keys from the empty cache
keeps exactly the 100 most recently inserted entries, in insertion
order: the result is the keyed-entry list with its oldest
`length - 100` entries dropped. -/
lemma insertKeys_nil (now : Nat) (vals : String → String) :
    ∀ ks : List String, ks.Nodup →
      insertKeys now vals [] ks =
        (ks.map (fun k => (k, CacheEntry.mk (vals k) now))).drop (ks.length - 100) := by
  intro ks
  induction ks using List.reverseRecOn with
  | nil => intro _; rfl
  | append_singleton l a ih =>
    intro hnd
    obtain ⟨hlnd, -, hdisj⟩ := List.nodup_append.mp hnd
    have ha : a ∉ l := fun hmem => hdisj hmem (List.mem_cons_self a [])
    have hstep : insertKeys now vals [] (l ++ [a]) =
        setCache (insertKeys now vals [] l) a (vals a) now := by
      simp only [insertKeys, List.foldl_append, List.foldl_cons, List.foldl_nil]
    rw [hstep, ih hlnd,
      setCache_fresh _ _ _ _
        (any_key_drop_map l _ (fun _ => rfl) a _ ha)]
    by_cases hl : l.length < 100
    · have h0 : l.length - 100 = 0 := by omega
      have h1 : (l ++ [a]).length - 100 = 0 := by
        simp only [List.length_append, List.length_cons, List.length_nil]
        omega
      rw [h0, h1, List.drop_zero, List.drop_zero,
        if_pos (by simp only [List.length_map]; omega), List.map_append]
      rfl
    · have hclen :
          ((l.map fun k => (k, CacheEntry.mk (vals k) now)).drop (l.length - 100)).length
            = 100 := by
        simp only [List.length_drop, List.length_map]
        omega
      rw [if_neg (by omega), List.map_append]
      have h2 : (l ++ [a]).length - 100 = l.length - 100 + 1 := by
        simp only [List.length_append, List.length_cons, List.length_nil]
        omega
      rw [h2,
        List.drop_append_of_le_length
          (n := l.length - 100 + 1) (by simp only [List.length_map]; omega),
        List.drop_append_of_le_length
          (n := 1) (by simp only [List.length_drop, List.length_map]; omega),
        List.drop_drop]
      rfl

/-- Looking up a key absent from a keyed-entry list finds nothing. -/
lemma find?_key_map_none (g : String → CacheEntry) (a : String) :
    ∀ t : List String, a ∉ t →
      (t.map (fun k => (k, g k))).find? (fun p => p.1 == a) = none := by
  intro t
  induction t with
  | nil => intro _; rfl
  | cons x xs ih =>
    intro ha
    simp only [List.mem_cons, not_or] at ha
    simp only [List.map_cons]
    rw [List.find?_cons_of_neg _ (by simp only [beq_iff_eq]; exact fun hh => ha.1 hh.symm)]
    exact ih ha.2

/-- Looking up a key present in a keyed-entry list finds its entry. -/
lemma find?_key_map_mem (g : String → CacheEntry) (a : String) :
    ∀ t : List String, a ∈ t →
      (t.map (fun k => (k, g k))).find? (fun p => p.1 == a) = some (a, g a) := by
  intro t
  induction t with
  | nil => intro h; cases h
  | cons x xs ih =>
    intro ha
    simp only [List.map_cons]
    by_cases hx : x = a
    · subst hx
      rw [List.find?_cons_of_pos _ (by simp)]
    · rw [List.find?_cons_of_neg _ (by simp only [beq_iff_eq]; exact hx)]
      rcases List.mem_cons.mp ha with h | h
      · exact absurd h.symm hx
      · exact ih h

/-- C7: after inserting 101 distinct keys into an empty cache via
`setCache`, the first-inserted key is a cache miss (FIFO eviction of the
oldest-inserted entry once the size exceeds 100) while each of the
remaining 100 keys is still readable with its stored value. -/
theorem cache_fifo_eviction (ks : List String) (vals : String → String) (now : Nat)
    (hlen : ks.length = 101) (hnd : ks.Nodup) :
    (∀ k0, ks.head? = some k0 →
      getCached (insertKeys now vals [] ks) k0 now = none) ∧
    (∀ k, k ∈ ks.tail →
      getCached (insertKeys now vals [] ks) k now = some (vals k)) := by
  rw [insertKeys_nil now vals ks hnd, hlen,
    show (101 : Nat) - 100 = 1 from by norm_num]
  cases ks with
  | nil => simp at hlen
  | cons k0 t =>
    have hk0 : k0 ∉ t := (List.nodup_cons.mp hnd).1
    constructor
    · intro k0' h
      have hh : k0 = k0' := by simpa using h
      subst hh
      simp only [List.map_cons, List.drop_succ_cons, List.drop_zero]
      simp only [getCached, mapGet, find?_key_map_none _ k0 t hk0, Option.map_none']
    · intro k hk
      simp only [List.tail_cons] at hk
      simp only [List.map_cons, List.drop_succ_cons, List.drop_zero]
      simp only [getCached, mapGet, find?_key_map_mem _ k t hk, Option.map_some']
      rw [if_pos (by simp only [Nat.sub_self]; norm_num [cacheExpiry])]

/-- A list of 101 distinct cache keys: the decimal numerals 0 .. 100. -/
def ksDemo : List String := (List.range 101).map Nat.repr

/-- C7 witness: with keys "0" .. "100" inserted in order, the
first-inserted key "0" misses while a later key such as "5" still reads
back its value. -/
theorem cache_fifo_eviction_inst :
    getCached (insertKeys 0 (fun k => k) [] ksDemo) "0" 0 = none ∧
    getCached (insertKeys 0 (fun k => k) [] ksDemo) "5" 0 = some "5" :=
  ⟨(cache_fifo_eviction ksDemo (fun k => k) 0 (by decide) (by decide)).1 "0" (by decide),
   (cache_fifo_eviction ksDemo (fun k => k) 0 (by decide) (by decide)).2 "5" (by decide)⟩

/- ================================================================
   Part 3: tryModel's probe timeout (geminiService.js lines 93-103)

   const controller = new AbortController();
   const timeout = setTimeout(() => controller.abort(), 8000);
   const probe = await testModel.generateContent(probeText);  -- no signal!
   clearTimeout(timeout);
   ...
   if (text && text.length > 0) ... return true
   ================================================================ -/

/-- A backend probe response: how many milliseconds it takes to arrive
and the text it carries. -/
structure ProbeResponse where
  delayMs : Nat
  text : String

/-- The 8000 ms probe bound of `tryModel` (line 95). -/
def probeTimeoutMs : Nat := 8000

/-- Semantics of an abortable backend call: with `signalTimeoutMs =
some t` an abort signal wired to the request fires after `t` ms, so a
response arriving later than `t` is abandoned (`none`); with `none` no
signal is attached and the call always completes with the response
text. -/
def abortableGenerate (signalTimeoutMs : Option Nat) (resp : ProbeResponse) :
    Option String :=
  match signalTimeoutMs with
  | some t => if t < resp.delayMs then none else some resp.text
  | none => some resp.text

/-- Probe step of `tryModel` (lines 94-103): an `AbortController` with an
8000 ms timer is created, but its signal is never passed to
`generateContent`, so the call is made with no signal attached; the
probe then succeeds exactly when the text is non-empty. -/
def tryModelProbe (resp : ProbeResponse) : Bool :=
  match abortableGenerate none resp with
  | some text => decide (0 < text.length)
  | none => false

/-- C8 (code bug): a probe whose non-empty response arrives after 9000
ms — beyond the 8-second bound — still succeeds, because the abort
signal is not wired to the request; had the signal been attached (the
behaviour the code's own "Quick test with 8s timeout" comment and the
spec describe), the same response would have been abandoned. -/
theorem tryModel_timeout_not_enforced :
    tryModelProbe ⟨9000, "OK"⟩ = true ∧
    abortableGenerate (some probeTimeoutMs) ⟨9000, "OK"⟩ = none :=
  ⟨rfl, rfl⟩

/-- C9 counterexample: with an active model and a cache holding a valid
(fresh) entry for the prompt's 100-character key, `generateRaw` is
suppressed (0 backend calls) but `generateStream` still issues its
backend request (1 call) — the streaming variant does not apply the
cache-hit suppression the claim describes. -/
theorem generateStream_cache_counterexample :
    getCached [("p".take 100, CacheEntry.mk "cached" 0)] ("p".take 100) 0 =
      some "cached" ∧
    (generateRaw (some "m") [("p".take 100, CacheEntry.mk "cached" 0)]
        (fun _ => "fresh") 0 "p").backendCalls = 0 ∧
    (generateStream (some "m") [("p".take 100, CacheEntry.mk "cached" 0)]
        (fun _ => ["chunk"]) "p").backendCalls = 1 :=
  ⟨by decide, by decide, rfl⟩

/-- C9 amended: once a model is active, `generateStream` performs no
cache read at all — it always issues exactly one backend request and
returns the lazily-produced chunk sequence, and it never writes the
streamed output to the cache (the cache is returned unchanged). It
shares with `generate` only the not-initialized check. -/
theorem generateStream_no_cache_read (m : String) (c : Cache)
    (bs : String → List String) (prompt : String) :
    generateStream (some m) c bs prompt = ⟨Except.ok (bs prompt), c, 1⟩ :=
  rfl

/- ================================================================
   Part 4: getJobRecommendations (geminiService.js lines 250-287) and
   extractFirstJSONArray (lines 209-219)
   ================================================================ -/

/-- A JSON value as produced by `JSON.parse` (numbers modelled as
integers; only their type matters here). -/
inductive JSValue where
  | null : JSValue
  | bool : Bool → JSValue
  | num : Int → JSValue
  | str : String → JSValue
  | arr : List JSValue → JSValue
  | obj : List (String × JSValue) → JSValue

/-- JavaScript truthiness of a parsed JSON value (`r && ...`):
`null`, `false`, `0` and `""` are falsy; arrays and objects are always
truthy. -/
def jsTruthy : JSValue → Bool
  | JSValue.null => false
  | JSValue.bool b => b
  | JSValue.num n => decide (n ≠ 0)
  | JSValue.str s => decide (s ≠ "")
  | JSValue.arr _ => true
  | JSValue.obj _ => true

/-- Property access `v.k` on a parsed JSON value: a field of an object,
`undefined` (here `none`) on everything else. -/
def jsGetField (v : JSValue) (k : String) : Option JSValue :=
  match v with
  | JSValue.obj fs => (fs.find? (fun p => p.1 == k)).map (fun p => p.2)
  | _ => none

/-- Undefined (`none`) is falsy; otherwise JS truthiness of the value. -/
def truthyOpt : Option JSValue → Bool
  | some v => jsTruthy v
  | none => false

/-- Model of the check that `typeof x` is number, on a possibly-undefined JSON value. -/
def isNumberOpt : Option JSValue → Bool
  | some (JSValue.num _) => true
  | _ => false

/-- The filter of line 281: element truthy, `jobId` field truthy, and
`matchScore` of number type. -/
def recFilter (r : JSValue) : Bool :=
  jsTruthy r && truthyOpt (jsGetField r "jobId") &&
    isNumberOpt (jsGetField r "matchScore")

/-- Model of `getJobRecommendations` (lines 250-287), parameterized by the
outcome of the `generateRaw` call (`backendResult`; an error covers any
exception inside the `try`, all of which the `catch` maps to `[]`) and
by the `extractFirstJSONArray` regex-and-parse step (`extractArr`,
returning the parsed value or `null`). A non-array parse result fails
the `Array.isArray` guard; otherwise the parsed elements are filtered
and truncated with `.slice(0, 5)`. -/
def getJobRecommendations (backendResult : Except String String)
    (extractArr : String → Option JSValue) : List JSValue :=
  match backendResult with
  | Except.error _ => []
  | Except.ok text =>
    match extractArr text with
    | some (JSValue.arr xs) => (xs.filter recFilter).take 5
    | some _ => []
    | none => []

/-- Every element passing the recommendation filter is a non-null
object carrying a `jobId` field and a numeric `matchScore` field. -/
lemma recFilter_shape (v : JSValue) (h : recFilter v = true) :
    (∃ fs, v = JSValue.obj fs) ∧
    (jsGetField v "jobId").isSome = true ∧
    isNumberOpt (jsGetField v "matchScore") = true := by
  simp only [recFilter, Bool.and_eq_true] at h
  obtain ⟨⟨-, hjob⟩, hnum⟩ := h
  refine ⟨?_, ?_, hnum⟩
  · cases v with
    | obj fs => exact ⟨fs, rfl⟩
    | null => simp [jsGetField, truthyOpt] at hjob
    | bool b => simp [jsGetField, truthyOpt] at hjob
    | num n => simp [jsGetField, truthyOpt] at hjob
    | str s => simp [jsGetField, truthyOpt] at hjob
    | arr xs => simp [jsGetField, truthyOpt] at hjob
  · cases hf : jsGetField v "jobId" with
    | some w => rfl
    | none => rw [hf] at hjob; simp [truthyOpt] at hjob

/-- C10: `getJobRecommendations` is total (never throws): its output
always has at most 5 elements, each a non-null object with a `jobId`
field and a numeric `matchScore`; any backend error yields `[]`, and so
does an extraction that produces no array. -/
theorem getJobRecommendations_safe (br : Except String String)
    (ex : String → Option JSValue) :
    (getJobRecommendations br ex).length ≤ 5 ∧
    (∀ v, v ∈ getJobRecommendations br ex →
      (∃ fs, v = JSValue.obj fs) ∧
      (jsGetField v "jobId").isSome = true ∧
      isNumberOpt (jsGetField v "matchScore") = true) ∧
    (∀ e, br = Except.error e → getJobRecommendations br ex = []) ∧
    (∀ t, br = Except.ok t → ex t = none → getJobRecommendations br ex = []) := by
  refine ⟨?_, ?_, ?_, ?_⟩
  · cases br with
    | error e => simp [getJobRecommendations]
    | ok text =>
      cases hext : ex text with
      | none => simp [getJobRecommendations, hext]
      | some v =>
        cases v with
        | arr xs =>
          simp only [getJobRecommendations, hext]
          exact le_trans (List.length_take_le 5 _) (le_refl 5)
        | null => simp [getJobRecommendations, hext]
        | bool b => simp [getJobRecommendations, hext]
        | num n => simp [getJobRecommendations, hext]
        | str s => simp [getJobRecommendations, hext]
        | obj fs => simp [getJobRecommendations, hext]
  · intro v hv
    cases br with
    | error e => simp [getJobRecommendations] at hv
    | ok text =>
      cases hext : ex text with
      | none => rw [getJobRecommendations, hext] at hv; cases hv
      | some w =>
        cases w with
        | arr xs =>
          rw [getJobRecommendations, hext] at hv
          have hv2 : v ∈ xs.filter recFilter := List.mem_of_mem_take hv
          exact recFilter_shape v (List.of_mem_filter hv2)
        | null => rw [getJobRecommendations, hext] at hv; cases hv
        | bool b => rw [getJobRecommendations, hext] at hv; cases hv
        | num n => rw [getJobRecommendations, hext] at hv; cases hv
        | str s => rw [getJobRecommendations, hext] at hv; cases hv
        | obj fs => rw [getJobRecommendations, hext] at hv; cases hv
  · intro e he
    subst he
    rfl
  · intro t ht hext
    subst ht
    simp [getJobRecommendations, hext]

/-- C10 witness: a backend text whose extraction yields a two-element
array — a valid recommendation object and a `null` — produces exactly
the valid object, which the theorem certifies to be a non-null object
with `jobId` and numeric `matchScore`. -/
theorem getJobRecommendations_safe_inst :
    (∃ fs, JSValue.obj [("jobId", JSValue.str "j1"), ("matchScore", JSValue.num 1)] =
      JSValue.obj fs) ∧
    (jsGetField (JSValue.obj [("jobId", JSValue.str "j1"),
      ("matchScore", JSValue.num 1)]) "jobId").isSome = true ∧
    isNumberOpt (jsGetField (JSValue.obj [("jobId", JSValue.str "j1"),
      ("matchScore", JSValue.num 1)]) "matchScore") = true :=
  (getJobRecommendations_safe (Except.ok "t")
      (fun _ => some (JSValue.arr [JSValue.obj [("jobId", JSValue.str "j1"),
        ("matchScore", JSValue.num 1)], JSValue.null]))).2.1
    (JSValue.obj [("jobId", JSValue.str "j1"), ("matchScore", JSValue.num 1)])
    (List.Mem.head _)
